import Mathlib

/-!
Shallow embedding of the multi-chain balance reconciliation routine in
`.github/scripts/fetch-balances.js`.

JavaScript numbers are modelled as exact rationals together with an explicit
NaN value (`JsNum`).  JSON values delivered by `response.json()` are modelled
by the inductive `Json`, restricted to the shapes the endpoints in question
produce (null, booleans, numbers, objects).  A network interaction that may
throw (fetch / json parsing / RPC transport) is modelled as an
`Except Unit _` outcome supplied by the environment; the `try/catch` blocks
of the script correspond to total functions on those outcomes.
-/

namespace FetchBalances

/-- A JavaScript number: an exact rational or NaN. -/
inductive JsNum where
  | num (q : ℚ)
  | nan
deriving DecidableEq, Repr

namespace JsNum

/-- JavaScript addition (`a + b`): NaN is absorbing. -/
def add : JsNum → JsNum → JsNum
  | num a, num b => num (a + b)
  | _, _ => nan

/-- JavaScript subtraction (`a - b`): NaN is absorbing. -/
def sub : JsNum → JsNum → JsNum
  | num a, num b => num (a - b)
  | _, _ => nan

/-- JavaScript strict comparison `a > b`; any comparison with NaN is false. -/
def jsGT : JsNum → JsNum → Bool
  | num a, num b => decide (b < a)
  | _, _ => false

end JsNum

/-- A JSON value as returned by `response.json()`, restricted to the shapes
the oracle and RPC endpoints produce: null, booleans, numbers and objects. -/
inductive Json where
  | jnull
  | jbool (b : Bool)
  | jnum (q : ℚ)
  | jobj (fields : List (String × Json))

/-- JavaScript truthiness of a JSON value: null, false and 0 are falsy;
every object (even empty) is truthy. -/
def truthy : Json → Bool
  | .jnull => false
  | .jbool b => b
  | .jnum q => decide (q ≠ 0)
  | .jobj _ => true

/-- Property access `v.f`: `some` the field's value on an object that has it,
`none` (JavaScript `undefined`) otherwise. -/
def getField : Json → String → Option Json
  | .jobj fields, f => fields.lookup f
  | _, _ => none

/-- JavaScript `ToNumber` on a JSON value: null is 0, booleans are 0/1,
objects coerce to NaN. -/
def toNumber : Json → JsNum
  | .jnull => .num 0
  | .jbool b => .num (if b then 1 else 0)
  | .jnum q => .num q
  | .jobj _ => .nan

/-- JavaScript `Number(x)` where `x` is a possibly-undefined field:
`Number(undefined)` is NaN. -/
def numberOf : Option Json → JsNum
  | none => .nan
  | some j => toNumber j

/-- The chain-configuration table `CHAINS` (only the set of configured names
matters to the control flow: an unknown name makes `config.rpc` throw, which
the catch-all turns into the sentinel 0). -/
def CHAINS : List String :=
  ["Ethereum", "BSC", "Arbitrum", "Polygon", "Avalanche", "Optimism", "Base", "Mantle"]

/-- `fetchEVMTotalSupply(chainName, contractAddress)`.  The environment
supplies the outcome of the two contract calls: either a thrown error or the
pair (raw `totalSupply` as a natural, `decimals`).  On success the script
computes `Number(ethers.formatUnits(totalSupply, decimals))`, i.e. the exact
quotient `rawSupply / 10^decimals`; every failure is caught and returns 0. -/
def fetchEVMTotalSupply (chainName : String) (call : Except Unit (ℕ × ℕ)) : JsNum :=
  if CHAINS.contains chainName then
    match call with
    | .error _ => .num 0
    | .ok (raw, dec) => .num ((raw : ℚ) / 10 ^ dec)
  else .num 0

/-- `fetchSolanaTotalSupply(tokenAddress)`.  The environment supplies the
parsed JSON-RPC response (or a thrown transport/parse error).  The script
returns `Number(data.result.value.uiAmount)` when `data.result` and
`data.result.value` are truthy, and otherwise throws, which the catch-all
turns into 0.  Note `Number(undefined)` is NaN when `uiAmount` is absent. -/
def fetchSolanaTotalSupply (resp : Except Unit Json) : JsNum :=
  match resp with
  | .error _ => .num 0
  | .ok data =>
    match getField data "result" with
    | none => .num 0
    | some r =>
      if truthy r then
        match getField r "value" with
        | none => .num 0
        | some v =>
          if truthy v then numberOf (getField v "uiAmount") else .num 0
      else .num 0

/-- `fetchCirculatingSupply()`.  The environment supplies the parsed oracle
response (or a thrown error).  When `data` and `data.total_supply` are truthy
the script returns `data.total_supply - 300000000`; every other path returns
the sentinel 0. -/
def fetchCirculatingSupply (resp : Except Unit Json) : JsNum :=
  match resp with
  | .error _ => .num 0
  | .ok data =>
    if truthy data then
      match getField data "total_supply" with
      | none => .num 0
      | some v =>
        if truthy v then JsNum.sub (toNumber v) (.num 300000000) else .num 0
    else .num 0

/-- One entry of `links.json` (the Record Store), with the fields the
reconciliation routine reads or writes. -/
structure Link where
  name : String
  url : String
  category : String
  contractAddress : Option String
  tokenBalance : Option JsNum
deriving DecidableEq, Repr

/-- The outcomes of every external interaction an invocation performs:
the oracle response, the per-(chain, address) EVM contract-call outcomes,
and the per-address Solana RPC responses. -/
structure Env where
  oracle : Except Unit Json
  evm : String → String → Except Unit (ℕ × ℕ)
  solana : String → Except Unit Json

/-- Eligibility filter of `updateBalances`:
`link.category === 'Explorers' && link.contractAddress` (a link whose
`contractAddress` is absent — or the falsy empty string — is not eligible). -/
def eligible (l : Link) : Bool :=
  l.category == "Explorers" && !(l.contractAddress.getD "" == "")

/-- `links.filter(link => link.category === 'Explorers' && link.contractAddress)`. -/
def explorerLinksOf (links : List Link) : List Link :=
  links.filter eligible

/-- The balance the loop body fetches for one link: the Solana adapter for a
link named `Solana`, the EVM adapter (keyed by the link's name) otherwise. -/
def fetchedBalance (env : Env) (l : Link) : JsNum :=
  if l.name == "Solana" then
    fetchSolanaTotalSupply (env.solana (l.contractAddress.getD ""))
  else
    fetchEVMTotalSupply l.name (env.evm l.name (l.contractAddress.getD ""))

/-- The per-link effect of the fetch loop: links named `Ethereum` are skipped
(`continue`), every other link has its `tokenBalance` assigned the fetched
balance. -/
def fetchPhase (env : Env) (links : List Link) : List Link :=
  links.map fun l =>
    if l.name == "Ethereum" then l
    else { l with tokenBalance := some (fetchedBalance env l) }

/-- The `bridgedBalances` array: the balances pushed by the loop, in loop
order (all eligible links except those named `Ethereum`). -/
def bridgedBalances (env : Env) (links : List Link) : List JsNum :=
  (links.filter fun l => !(l.name == "Ethereum")).map (fetchedBalance env)

/-- `bridgedBalances.reduce((sum, balance) => sum + balance, 0)`. -/
def totalBridged (env : Env) (links : List Link) : JsNum :=
  (bridgedBalances env links).foldl JsNum.add (.num 0)

/-- Updates the first link named `Ethereum` (the record
`explorerLinks.find(link => link.name === 'Ethereum')` mutates), leaving the
list unchanged when there is none. -/
def setFirstEthereum (f : Link → Link) : List Link → List Link
  | [] => []
  | x :: xs => if x.name == "Ethereum" then f x :: xs else x :: setFirstEthereum f xs

/-- The residual step: if an `Ethereum` link was found and
`circulatingSupply > 0`, its balance becomes `circulatingSupply − totalBridged`;
if one was found but the supply is not positive, it becomes a direct EVM fetch
for its own contract address; with no `Ethereum` link nothing happens. -/
def residualPhase (env : Env) (circulatingSupply tot : JsNum) (links : List Link) : List Link :=
  setFirstEthereum (fun l =>
    let b : JsNum :=
      if JsNum.jsGT circulatingSupply (.num 0) then JsNum.sub circulatingSupply tot
      else fetchEVMTotalSupply "Ethereum" (env.evm "Ethereum" (l.contractAddress.getD ""))
    { l with tokenBalance := some b })
    links

/-- The sort key of the comparator `(a, b) => b.tokenBalance - a.tokenBalance`:
`ToNumber` of the balance, with `null` coercing to 0. -/
def sortKey (l : Link) : JsNum :=
  match l.tokenBalance with
  | none => .num 0
  | some v => v

/-- The sort key as an optional rational (`none` for NaN). -/
def numKey (l : Link) : Option ℚ :=
  match sortKey l with
  | .num q => some q
  | .nan => none

/-- The effective comparator value for the pair `(a, b)`: the ECMAScript
`SortCompare` maps a NaN comparator result to `+0`, so a subtraction
involving NaN acts as a tie. -/
def cmpQ (a b : Link) : ℚ :=
  match numKey a, numKey b with
  | some x, some y => y - x
  | _, _ => 0

/-- Stable insertion into a sorted (descending) list: a later element `x`
moves ahead of `y` exactly when the comparator orders it strictly before
(`cmpQ x y < 0`); ties keep the earlier element first. -/
def insertLink (x : Link) : List Link → List Link
  | [] => [x]
  | y :: ys => if cmpQ x y < 0 then x :: y :: ys else y :: insertLink x ys

/-- The stable sort `explorerLinks.sort((a, b) => b.tokenBalance - a.tokenBalance)`:
descending by coerced balance, ties in original order. -/
def sortRecords (links : List Link) : List Link :=
  links.foldl (fun acc x => insertLink x acc) []

/-- `updateBalances`: select eligible records, fetch the circulating supply,
fetch each non-Ethereum eligible balance, compute the Ethereum residual (or
its fallback), sort the eligible records by balance, and prepend the
non-`Explorers` records in their original order. -/
def updateBalances (env : Env) (links : List Link) : List Link :=
  let explorerLinks := explorerLinksOf links
  let circulatingSupply := fetchCirculatingSupply env.oracle
  let fetched := fetchPhase env explorerLinks
  let withResidual :=
    residualPhase env circulatingSupply (totalBridged env explorerLinks) fetched
  let sortedExplorers := sortRecords withResidual
  let nonExplorerLinks := links.filter fun l => !(l.category == "Explorers")
  nonExplorerLinks ++ sortedExplorers

/-- The balance assigned to the first `Ethereum` record by the residual step
(lines 171–181 of the script): the subtraction when `circulatingSupply > 0`,
a direct EVM fetch for the record's own address otherwise. -/
def residualValue (env : Env) (links : List Link) (e : Link) : JsNum :=
  if JsNum.jsGT (fetchCirculatingSupply env.oracle) (.num 0) then
    JsNum.sub (fetchCirculatingSupply env.oracle) (totalBridged env (explorerLinksOf links))
  else
    fetchEVMTotalSupply "Ethereum" (env.evm "Ethereum" (e.contractAddress.getD ""))

/-- Replacing a `null` balance by the number 0 (used to state that the sort
comparator coerces `null` to 0). -/
def nullToZero (l : Link) : Link :=
  match l.tokenBalance with
  | none => { l with tokenBalance := some (.num 0) }
  | some _ => l

/-! Concrete records and environments used to instantiate the claims. -/

/-- An environment in which every external call throws. -/
def envNull : Env := ⟨.error (), fun _ _ => .error (), fun _ => .error ()⟩

/-- An `Explorers` record with no contract address. -/
def fantomNoAddr : Link := ⟨"Fantom", "u", "Explorers", none, none⟩

/-- Another `Explorers` record with no contract address. -/
def cronosNoAddr : Link := ⟨"Cronos", "u", "Explorers", none, some (.num 7)⟩

/-- A third `Explorers` record with no contract address. -/
def metisNoAddr : Link := ⟨"Metis", "u", "Explorers", none, none⟩

/-- An eligible Ethereum record. -/
def ethLinkC1 : Link := ⟨"Ethereum", "u", "Explorers", some "0xeth", none⟩

/-- An eligible BSC record. -/
def bscLinkC1 : Link := ⟨"BSC", "u", "Explorers", some "0xbsc", none⟩

/-- An eligible Arbitrum record. -/
def arbLink : Link := ⟨"Arbitrum", "u", "Explorers", some "0xarb", none⟩

/-- Oracle reports total supply 300,000,100 (circulating 100); every EVM chain
reports raw supply 600 with 0 decimals. -/
def envC1 : Env :=
  ⟨.ok (.jobj [("total_supply", .jnum 300000100)]), fun _ _ => .ok (600, 0), fun _ => .error ()⟩

/-- Oracle throws; Ethereum reports 42, other chains 600 (0 decimals). -/
def envC6 : Env :=
  ⟨.error (), fun c _ => if c == "Ethereum" then .ok (42, 0) else .ok (600, 0),
   fun _ => .error ()⟩

/-- Every chain call fails except EVM calls, which report raw 7 (0 decimals). -/
def envC7 : Env := ⟨.error (), fun _ _ => .ok (7, 0), fun _ => .error ()⟩

/-- Oracle reports total supply 100 (circulating −299,999,900); Ethereum
reports 42, other chains 600 (0 decimals). -/
def envC10 : Env :=
  ⟨.ok (.jobj [("total_supply", .jnum 100)]),
   fun c _ => if c == "Ethereum" then .ok (42, 0) else .ok (600, 0),
   fun _ => .error ()⟩

/-- Eligible records with balances 10, 0, 5 and null (the spec's sort example). -/
def exRec10 : Link := ⟨"A", "u", "Explorers", some "0xa", some (.num 10)⟩

/-- Balance 0 member of the sort example. -/
def exRec0 : Link := ⟨"B", "u", "Explorers", some "0xb", some (.num 0)⟩

/-- Balance 5 member of the sort example. -/
def exRec5 : Link := ⟨"C", "u", "Explorers", some "0xc", some (.num 5)⟩

/-- Null-balance member of the sort example. -/
def exRecNull : Link := ⟨"D", "u", "Explorers", some "0xd", none⟩

/-- An eligible record with a negative balance (a reachable state: the
unclamped residual may be negative). -/
def negRec : Link := ⟨"Neg", "u", "Explorers", some "0xn", some (.num (-5))⟩

/-- An eligible record with a null balance. -/
def nullRecC5 : Link := ⟨"Nul", "u", "Explorers", some "0xm", none⟩

/-- An eligible record with balance exactly 0. -/
def zeroRecC9 : Link := ⟨"Zero", "u", "Explorers", some "0xz", some (.num 0)⟩

/-- An eligible record with a null balance, for the tie example. -/
def nullRecC9 : Link := ⟨"Null", "u", "Explorers", some "0xq", none⟩

/-! Basic lemmas about the stable sort and the list phases. -/

theorem mem_insertLink (a x : Link) (l : List Link) :
    a ∈ insertLink x l ↔ a = x ∨ a ∈ l := by
  induction l with
  | nil => simp [insertLink]
  | cons y ys ih =>
    by_cases h : cmpQ x y < 0 <;> simp [insertLink, h, ih] <;> tauto

theorem mem_sortRecords_aux (a : Link) (l : List Link) : ∀ acc : List Link,
    (a ∈ l.foldl (fun acc x => insertLink x acc) acc ↔ a ∈ acc ∨ a ∈ l) := by
  induction l with
  | nil => intro acc; simp
  | cons y ys ih =>
    intro acc
    simp only [List.foldl_cons, ih, mem_insertLink, List.mem_cons]
    tauto

theorem mem_sortRecords (a : Link) (l : List Link) : a ∈ sortRecords l ↔ a ∈ l := by
  simpa using mem_sortRecords_aux a l []

theorem length_insertLink (x : Link) (l : List Link) :
    (insertLink x l).length = l.length + 1 := by
  induction l with
  | nil => rfl
  | cons y ys ih =>
    by_cases h : cmpQ x y < 0 <;> simp [insertLink, h, ih]

theorem length_sortRecords_aux (l : List Link) : ∀ acc : List Link,
    (l.foldl (fun acc x => insertLink x acc) acc).length = acc.length + l.length := by
  induction l with
  | nil => intro acc; simp
  | cons y ys ih =>
    intro acc
    simp only [List.foldl_cons, ih, length_insertLink, List.length_cons]
    omega

theorem length_sortRecords (l : List Link) : (sortRecords l).length = l.length := by
  simpa using length_sortRecords_aux l []

theorem length_setFirstEthereum (f : Link → Link) (l : List Link) :
    (setFirstEthereum f l).length = l.length := by
  induction l with
  | nil => rfl
  | cons y ys ih =>
    by_cases h : y.name == "Ethereum" <;> simp [setFirstEthereum, h, ih]

theorem mem_setFirstEthereum (f : Link → Link) {r : Link} {l : List Link}
    (h : r ∈ setFirstEthereum f l) : ∃ x ∈ l, r = x ∨ r = f x := by
  induction l with
  | nil => simp [setFirstEthereum] at h
  | cons y ys ih =>
    by_cases hy : y.name == "Ethereum"
    · rw [setFirstEthereum, if_pos hy] at h
      rcases List.mem_cons.mp h with rfl | hr
      · exact ⟨y, List.mem_cons_self y ys, Or.inr rfl⟩
      · exact ⟨r, List.mem_cons_of_mem y hr, Or.inl rfl⟩
    · rw [setFirstEthereum, if_neg hy] at h
      rcases List.mem_cons.mp h with rfl | hr
      · exact ⟨r, List.mem_cons_self r ys, Or.inl rfl⟩
      · obtain ⟨x, hx, hrx⟩ := ih hr
        exact ⟨x, List.mem_cons_of_mem y hx, hrx⟩

theorem setFirstEthereum_mem_of_find (f : Link → Link) {l : List Link} {e : Link}
    (h : l.find? (fun x => x.name == "Ethereum") = some e) :
    f e ∈ setFirstEthereum f l := by
  induction l with
  | nil => simp at h
  | cons y ys ih =>
    cases hy : (y.name == "Ethereum") <;>
      simp only [List.find?_cons, hy] at h <;>
      simp only [setFirstEthereum, hy, if_true, if_false, Bool.false_eq_true]
    · exact List.mem_cons_of_mem y (ih h)
    · obtain rfl := Option.some.inj h
      exact List.mem_cons_self _ _

theorem find_fetchPhase (env : Env) {l : List Link} {e : Link}
    (h : l.find? (fun x => x.name == "Ethereum") = some e) :
    (fetchPhase env l).find? (fun x => x.name == "Ethereum") = some e := by
  induction l with
  | nil => simp at h
  | cons y ys ih =>
    simp only [fetchPhase, List.map_cons] at *
    cases hy : (y.name == "Ethereum") <;>
      simp only [List.find?_cons, hy] at h <;>
      simp only [hy, if_true, if_false, Bool.false_eq_true, List.find?_cons]
    · simpa [hy] using ih h
    · obtain rfl := Option.some.inj h
      simp [hy]

theorem eligible_set_tokenBalance (x : Link) (b : Option JsNum) :
    eligible { x with tokenBalance := b } = eligible x := rfl

theorem eligible_of_mem_fetchPhase (env : Env) {l : List Link} {r : Link}
    (hl : ∀ x ∈ l, eligible x = true) (h : r ∈ fetchPhase env l) : eligible r = true := by
  simp only [fetchPhase, List.mem_map] at h
  obtain ⟨x, hx, hr⟩ := h
  by_cases hn : x.name == "Ethereum" <;> simp only [hn] at hr
  · simp only [if_pos] at hr
    exact hr ▸ hl x hx
  · rw [if_neg (by simpa using hn)] at hr
    rw [← hr, eligible_set_tokenBalance]
    exact hl x hx

theorem eligible_of_mem_residualPhase (env : Env) (c t : JsNum) {l : List Link} {r : Link}
    (hl : ∀ x ∈ l, eligible x = true) (h : r ∈ residualPhase env c t l) : eligible r = true := by
  obtain ⟨x, hx, hrx⟩ := mem_setFirstEthereum _ h
  rcases hrx with h1 | h1 <;> rw [h1]
  · exact hl x hx
  · exact hl x hx

/-! Comparator lemmas.  `cmpQ a b ≤ 0` reads "the comparator does not demand
that `b` come before `a`"; with a NaN key every comparison ties (the
ECMAScript `SortCompare` maps a NaN comparator value to `+0`). -/

theorem cmpQ_anti (a b : Link) : cmpQ a b = -cmpQ b a := by
  unfold cmpQ
  cases numKey a <;> cases numKey b <;> simp <;> ring

theorem cmpQ_lt_iff (x y : Link) :
    cmpQ x y < 0 ↔ ∃ kx ky, numKey x = some kx ∧ numKey y = some ky ∧ ky < kx := by
  unfold cmpQ
  cases hx : numKey x <;> cases hy : numKey y <;> simp

theorem cmpQ_lt_le_trans {x y z : Link} (h1 : cmpQ x y < 0) (h2 : cmpQ y z ≤ 0) :
    cmpQ x z ≤ 0 := by
  unfold cmpQ at *
  cases hx : numKey x <;> cases hy : numKey y <;> cases hz : numKey z <;>
    simp [hx, hy, hz] at * <;> linarith

theorem pairwise_insertLink {l : List Link} (x : Link)
    (h : l.Pairwise (fun a b => cmpQ a b ≤ 0)) :
    (insertLink x l).Pairwise (fun a b => cmpQ a b ≤ 0) := by
  induction l with
  | nil => simp [insertLink]
  | cons y ys ih =>
    rw [List.pairwise_cons] at h
    obtain ⟨hy, hys⟩ := h
    by_cases hxy : cmpQ x y < 0
    · rw [insertLink, if_pos hxy]
      refine List.Pairwise.cons ?_ (List.Pairwise.cons hy hys)
      intro z hz
      rcases List.mem_cons.mp hz with rfl | hz'
      · exact le_of_lt hxy
      · exact cmpQ_lt_le_trans hxy (hy z hz')
    · rw [insertLink, if_neg hxy]
      refine List.Pairwise.cons ?_ (ih hys)
      intro z hz
      rcases (mem_insertLink z x ys).mp hz with rfl | hz'
      · rw [cmpQ_anti]
        have := not_lt.mp hxy
        linarith
      · exact hy z hz'

theorem pairwise_sortRecords_aux (l : List Link) : ∀ acc : List Link,
    acc.Pairwise (fun a b => cmpQ a b ≤ 0) →
    (l.foldl (fun acc x => insertLink x acc) acc).Pairwise (fun a b => cmpQ a b ≤ 0) := by
  induction l with
  | nil => intro acc hacc; simpa using hacc
  | cons y ys ih => intro acc hacc; exact ih _ (pairwise_insertLink y hacc)

theorem pairwise_sortRecords (l : List Link) :
    (sortRecords l).Pairwise (fun a b => cmpQ a b ≤ 0) :=
  pairwise_sortRecords_aux l [] (by simp)

/-! Stability: for every key value, the sort preserves the relative order of
the records carrying that key. -/

theorem filter_insertLink (x : Link) (k : JsNum) {l : List Link}
    (h : l.Pairwise (fun a b => cmpQ a b ≤ 0)) :
    (insertLink x l).filter (fun r => sortKey r == k) =
      l.filter (fun r => sortKey r == k) ++ (if sortKey x == k then [x] else []) := by
  induction l with
  | nil =>
    by_cases hk : sortKey x == k <;> simp [insertLink, hk]
  | cons y ys ih =>
    rw [List.pairwise_cons] at h
    obtain ⟨hy, hys⟩ := h
    by_cases hxy : cmpQ x y < 0
    · rw [insertLink, if_pos hxy]
      obtain ⟨kx, ky, hkx, hky, hlt⟩ := (cmpQ_lt_iff x y).mp hxy
      by_cases hk : sortKey x == k
      · have hkval : k = .num kx := by
          have := eq_of_beq hk
          unfold numKey at hkx
          cases hsx : sortKey x <;> rw [hsx] at hkx this <;> simp_all
        have hnone : ∀ z ∈ y :: ys, ¬ (sortKey z == k) := by
          intro z hz hzk
          have hzkey : numKey z = some kx := by
            have := eq_of_beq hzk
            unfold numKey
            rw [this, hkval]
          rcases List.mem_cons.mp hz with rfl | hz'
          · rw [hky] at hzkey
            have : ky = kx := by simpa using hzkey
            linarith
          · have hyz := hy z hz'
            unfold cmpQ at hyz
            rw [hky, hzkey] at hyz
            simp at hyz
            linarith
        rw [List.filter_cons_of_pos (by simpa using hk)]
        rw [List.filter_eq_nil.mpr hnone, if_pos hk]
        have : (y :: ys).filter (fun r => sortKey r == k) = [] :=
          List.filter_eq_nil.mpr hnone
        simp_all
      · rw [List.filter_cons_of_neg (by simpa using hk), if_neg hk, List.append_nil]
    · rw [insertLink, if_neg hxy]
      by_cases hyk : sortKey y == k
      · rw [List.filter_cons_of_pos (by simpa using hyk),
          List.filter_cons_of_pos (by simpa using hyk), ih hys, List.cons_append]
      · rw [List.filter_cons_of_neg (by simpa using hyk),
          List.filter_cons_of_neg (by simpa using hyk), ih hys]

theorem filter_sortRecords_aux (k : JsNum) (l : List Link) : ∀ acc : List Link,
    acc.Pairwise (fun a b => cmpQ a b ≤ 0) →
    (l.foldl (fun acc x => insertLink x acc) acc).filter (fun r => sortKey r == k) =
      acc.filter (fun r => sortKey r == k) ++ l.filter (fun r => sortKey r == k) := by
  induction l with
  | nil => intro acc hacc; simp
  | cons y ys ih =>
    intro acc hacc
    rw [List.foldl_cons, ih _ (pairwise_insertLink y hacc), filter_insertLink y k hacc]
    by_cases hyk : sortKey y == k
    · rw [if_pos hyk, List.filter_cons_of_pos (by simpa using hyk)]
      simp
    · rw [if_neg hyk, List.filter_cons_of_neg (by simpa using hyk)]
      simp

theorem filter_sortRecords (k : JsNum) (l : List Link) :
    (sortRecords l).filter (fun r => sortKey r == k) = l.filter (fun r => sortKey r == k) := by
  simpa using filter_sortRecords_aux k l [] (by simp)

/-! The sort only looks at the coerced key, so a key-preserving rewrite of the
records commutes with sorting. -/

theorem numKey_congr {a b : Link} (h : sortKey a = sortKey b) : numKey a = numKey b := by
  unfold numKey
  rw [h]

theorem insertLink_map (f : Link → Link) (hf : ∀ a, sortKey (f a) = sortKey a)
    (x : Link) (l : List Link) :
    insertLink (f x) (l.map f) = (insertLink x l).map f := by
  induction l with
  | nil => simp [insertLink]
  | cons y ys ih =>
    have hcmp : cmpQ (f x) (f y) = cmpQ x y := by
      unfold cmpQ
      rw [numKey_congr (hf x), numKey_congr (hf y)]
    by_cases h : cmpQ x y < 0 <;>
      simp [insertLink, hcmp, h, ih]

theorem sortRecords_map_aux (f : Link → Link) (hf : ∀ a, sortKey (f a) = sortKey a)
    (l : List Link) : ∀ acc : List Link,
    (l.map f).foldl (fun acc x => insertLink x acc) (acc.map f) =
      (l.foldl (fun acc x => insertLink x acc) acc).map f := by
  induction l with
  | nil => intro acc; simp
  | cons y ys ih =>
    intro acc
    rw [List.map_cons, List.foldl_cons, List.foldl_cons, insertLink_map f hf, ih]

theorem sortRecords_map (f : Link → Link) (hf : ∀ a, sortKey (f a) = sortKey a)
    (l : List Link) : sortRecords (l.map f) = (sortRecords l).map f := by
  simpa using sortRecords_map_aux f hf l []

theorem sortKey_nullToZero (a : Link) : sortKey (nullToZero a) = sortKey a := by
  cases h : a.tokenBalance <;> simp [nullToZero, sortKey, h]

/-- The record the residual step produces is in the final output (the value
of the `if` mirrors lines 171–181 of the script). -/
theorem residual_record_mem (env : Env) (links : List Link) (e : Link)
    (hfind : (explorerLinksOf links).find? (fun l => l.name == "Ethereum") = some e) :
    { e with tokenBalance := some (residualValue env links e) } ∈ updateBalances env links := by
  show _ ∈ (links.filter fun l => !(l.category == "Explorers")) ++
    sortRecords (residualPhase env (fetchCirculatingSupply env.oracle)
      (totalBridged env (explorerLinksOf links)) (fetchPhase env (explorerLinksOf links)))
  apply List.mem_append_right
  rw [mem_sortRecords]
  exact setFirstEthereum_mem_of_find _ (find_fetchPhase env hfind)

/-- Every record of the output is either a non-`Explorers` record of the
input or an eligible record. -/
theorem mem_updateBalances_cases (env : Env) (links : List Link) {r : Link}
    (h : r ∈ updateBalances env links) :
    r ∈ links.filter (fun l => !(l.category == "Explorers")) ∨ eligible r = true := by
  have h' : r ∈ (links.filter fun l => !(l.category == "Explorers")) ++
      sortRecords (residualPhase env (fetchCirculatingSupply env.oracle)
        (totalBridged env (explorerLinksOf links)) (fetchPhase env (explorerLinksOf links))) := h
  rcases List.mem_append.mp h' with h1 | h2
  · exact Or.inl h1
  · rw [mem_sortRecords] at h2
    refine Or.inr (eligible_of_mem_residualPhase env _ _ ?_ h2)
    intro x hx
    exact eligible_of_mem_fetchPhase env (fun z hz => (List.mem_filter.mp hz).2) hx

/-! Claim theorems. -/

/-- Claim C3, counterexample: the oracle response `total_supply = 1` (below
the 300,000,000 locked constant) makes `fetchCirculatingSupply` return the
negative value −299,999,999, refuting "always returns a decimal ≥ 0". -/
theorem c3_counterexample :
    fetchCirculatingSupply (.ok (.jobj [("total_supply", .jnum 1)])) = .num (-299999999) ∧
    (-299999999 : ℚ) < 0 := by
  constructor
  · norm_num [fetchCirculatingSupply, truthy, getField, List.lookup, toNumber, JsNum.sub]
  · norm_num

/-- Claim C3, amended: `fetchCirculatingSupply` returns 0 on a thrown failure
and on a response with a missing (or falsy) `total_supply` field; on a truthy
numeric `total_supply = q` it returns exactly `q − 300,000,000`, which is
negative whenever `q < 300,000,000` — the result is not clamped to be ≥ 0. -/
theorem c3_oracle_contract :
    (∀ u : Unit, fetchCirculatingSupply (.error u) = .num 0) ∧
    (∀ data : Json, getField data "total_supply" = none →
      fetchCirculatingSupply (.ok data) = .num 0) ∧
    (∀ q : ℚ, q ≠ 0 →
      fetchCirculatingSupply (.ok (.jobj [("total_supply", .jnum q)])) =
        .num (q - 300000000)) := by
  refine ⟨fun u => rfl, ?_, ?_⟩
  · intro data hdata
    cases ht : truthy data <;>
      simp [fetchCirculatingSupply, hdata, ht]
  · intro q hq
    simp [fetchCirculatingSupply, truthy, getField, List.lookup, toNumber, JsNum.sub, hq]

/-- Claim C3, witness for the amended theorem: a truthy numeric
`total_supply = 42` yields exactly `42 − 300,000,000`. -/
theorem c3_witness :
    fetchCirculatingSupply (.ok (.jobj [("total_supply", .jnum 42)])) =
      .num (42 - 300000000) :=
  c3_oracle_contract.2.2 42 (by norm_num)

/-- Claim C4, counterexample: a Solana RPC response whose `result.value` is
present but lacks `uiAmount` makes `fetchSolanaTotalSupply` return NaN
(`Number(undefined)`), not the sentinel 0, refuting "on any malformed
response returns 0 and never NaN". -/
theorem c4_counterexample :
    fetchSolanaTotalSupply (.ok (.jobj [("result", .jobj [("value", .jobj [])])])) = .nan ∧
    JsNum.nan ≠ JsNum.num 0 :=
  ⟨by decide, by decide⟩

/-- Claim C4, amended: both adapters are total (the catch-all swallows every
thrown failure): `fetchEVMTotalSupply` returns 0 on a thrown failure and a
non-negative, non-NaN number on success; `fetchSolanaTotalSupply` returns 0 on
a thrown failure, but on a response whose `result.value` is truthy while
`uiAmount` is missing it returns NaN rather than 0. -/
theorem c4_adapter_degradation :
    (∀ (chain : String) (u : Unit), fetchEVMTotalSupply chain (.error u) = .num 0) ∧
    (∀ (chain : String) (raw dec : ℕ), ∃ q : ℚ, 0 ≤ q ∧
      fetchEVMTotalSupply chain (.ok (raw, dec)) = .num q) ∧
    (∀ u : Unit, fetchSolanaTotalSupply (.error u) = .num 0) ∧
    fetchSolanaTotalSupply
      (.ok (.jobj [("result", .jobj [("value", .jobj [("other", .jnull)])])])) = .nan := by
  refine ⟨?_, ?_, fun u => rfl, by decide⟩
  · intro chain u
    unfold fetchEVMTotalSupply
    by_cases h : CHAINS.contains chain = true
    · rw [if_pos h]
    · rw [if_neg h]
  · intro chain raw dec
    unfold fetchEVMTotalSupply
    by_cases h : CHAINS.contains chain = true
    · exact ⟨(raw : ℚ) / 10 ^ dec, by positivity, by rw [if_pos h]⟩
    · exact ⟨0, le_refl 0, by rw [if_neg h]⟩

/-- Claim C8: a successful EVM adapter call returning raw supply
1,500,000,000,000,000,000 with 18 decimals normalizes to exactly 1.5. -/
theorem c8_decimal_normalization (chain : String) (h : CHAINS.contains chain = true) :
    fetchEVMTotalSupply chain (.ok (1500000000000000000, 18)) = .num (3 / 2) := by
  simp only [fetchEVMTotalSupply, h, if_true]
  norm_num

/-- Claim C8, witness: the Ethereum chain normalizes
1,500,000,000,000,000,000 raw units at 18 decimals to 1.5. -/
theorem c8_witness :
    fetchEVMTotalSupply "Ethereum" (.ok (1500000000000000000, 18)) = .num (3 / 2) :=
  c8_decimal_normalization "Ethereum" (by decide)

/-- Claim C5, counterexample: with an eligible record of balance −5 (a
reachable unclamped residual) and a null-balance record, the sort places the
null record first and the −5 record last, refuting "nulls and zeros last". -/
theorem c5_counterexample :
    sortRecords [negRec, nullRecC5] = [nullRecC5, negRec] ∧
    nullRecC5.tokenBalance = none ∧ negRec.tokenBalance = some (.num (-5)) := by
  refine ⟨?_, rfl, rfl⟩
  norm_num [sortRecords, insertLink, cmpQ, numKey, sortKey, negRec, nullRecC5]

/-- Claim C5, amended: the final sort orders eligible records descending by
the comparator key (`tokenBalance` with null coerced to 0), it is stable
(records with equal keys keep their original relative order), and on balances
`[10, 0, 5, null]` it yields `[10, 5, 0, null]`; nulls and zeros come last
only among non-negative balances — a negative balance sorts after them. -/
theorem c5_sort_order :
    (∀ l : List Link, (sortRecords l).Pairwise (fun a b => cmpQ a b ≤ 0)) ∧
    (∀ (k : JsNum) (l : List Link),
      (sortRecords l).filter (fun r => sortKey r == k) =
        l.filter (fun r => sortKey r == k)) ∧
    sortRecords [exRec10, exRec0, exRec5, exRecNull] =
      [exRec10, exRec5, exRec0, exRecNull] := by
  refine ⟨pairwise_sortRecords, filter_sortRecords, ?_⟩
  norm_num [sortRecords, insertLink, cmpQ, numKey, sortKey, exRec10, exRec0, exRec5, exRecNull]

/-- Claim C9: the comparator coerces a null `tokenBalance` to 0, so replacing
every null balance by 0 commutes with the sort, and a null-balance record
ties with a zero-balance record, keeping the original relative order in
either input order. -/
theorem c9_null_coerces_to_zero :
    (∀ l : List Link, sortRecords (l.map nullToZero) = (sortRecords l).map nullToZero) ∧
    sortRecords [zeroRecC9, nullRecC9] = [zeroRecC9, nullRecC9] ∧
    sortRecords [nullRecC9, zeroRecC9] = [nullRecC9, zeroRecC9] := by
  refine ⟨fun l => sortRecords_map nullToZero sortKey_nullToZero l, ?_, ?_⟩ <;>
    norm_num [sortRecords, insertLink, cmpQ, numKey, sortKey, zeroRecC9, nullRecC9]

/-- Claim C1: when the fetched circulating supply is a number `c > 0` and an
eligible record named `Ethereum` exists, the output contains that record with
`tokenBalance` set to exactly `circulatingSupply − totalBridged` — no
clamping (the witness instantiates this with a negative residual). -/
theorem c1_residual_no_clamp (env : Env) (links : List Link) (e : Link) (c : ℚ)
    (hfind : (explorerLinksOf links).find? (fun l => l.name == "Ethereum") = some e)
    (hc : fetchCirculatingSupply env.oracle = .num c) (hpos : 0 < c) :
    { e with tokenBalance := some (JsNum.sub (fetchCirculatingSupply env.oracle)
        (totalBridged env (explorerLinksOf links))) } ∈ updateBalances env links := by
  have h := residual_record_mem env links e hfind
  have hgt : JsNum.jsGT (fetchCirculatingSupply env.oracle) (.num 0) = true := by
    rw [hc]
    simpa [JsNum.jsGT] using hpos
  have hval : residualValue env links e =
      JsNum.sub (fetchCirculatingSupply env.oracle) (totalBridged env (explorerLinksOf links)) := by
    unfold residualValue
    rw [if_pos hgt]
  rw [hval] at h
  exact h

/-- Claim C1, witness: circulating supply 100 with a bridged BSC balance of
600 sets the Ethereum record's balance to the negative value −500. -/
theorem c1_witness :
    { ethLinkC1 with tokenBalance := some (.num (-500)) } ∈
      updateBalances envC1 [ethLinkC1, bscLinkC1] := by
  have h := c1_residual_no_clamp envC1 [ethLinkC1, bscLinkC1] ethLinkC1 100 (by decide)
    (by norm_num [fetchCirculatingSupply, envC1, truthy, getField, toNumber, List.lookup,
      JsNum.sub]) (by norm_num)
  have hsub : JsNum.sub (fetchCirculatingSupply envC1.oracle)
      (totalBridged envC1 (explorerLinksOf [ethLinkC1, bscLinkC1])) = .num (-500) := by
    simp [envC1, ethLinkC1, bscLinkC1, explorerLinksOf, eligible, totalBridged,
      bridgedBalances, fetchedBalance, fetchEVMTotalSupply, fetchCirculatingSupply, truthy,
      getField, toNumber, List.lookup, CHAINS, JsNum.add, JsNum.sub]
    norm_num
  rw [hsub] at h
  exact h

/-- Claim C6: when the oracle call fails (circulating supply degraded to the
number 0) and an eligible `Ethereum` record exists, the output contains that
record with `tokenBalance` set to exactly the direct EVM fetch for its own
contract address — not a subtraction. -/
theorem c6_oracle_failure_fallback (env : Env) (links : List Link) (e : Link)
    (hfind : (explorerLinksOf links).find? (fun l => l.name == "Ethereum") = some e)
    (hc : fetchCirculatingSupply env.oracle = .num 0) :
    { e with tokenBalance := some (fetchEVMTotalSupply "Ethereum"
        (env.evm "Ethereum" (e.contractAddress.getD ""))) } ∈ updateBalances env links := by
  have h := residual_record_mem env links e hfind
  have hgt : JsNum.jsGT (fetchCirculatingSupply env.oracle) (.num 0) = false := by
    rw [hc]
    simp [JsNum.jsGT]
  have hval : residualValue env links e =
      fetchEVMTotalSupply "Ethereum" (env.evm "Ethereum" (e.contractAddress.getD "")) := by
    unfold residualValue
    rw [if_neg (by simp [hgt])]
  rw [hval] at h
  exact h

/-- Claim C6, witness: with the oracle throwing, the Ethereum record gets the
directly fetched balance 42 (not any subtraction). -/
theorem c6_witness :
    { ethLinkC1 with tokenBalance := some (.num 42) } ∈
      updateBalances envC6 [ethLinkC1, bscLinkC1] := by
  have h := c6_oracle_failure_fallback envC6 [ethLinkC1, bscLinkC1] ethLinkC1 (by decide) rfl
  have he : fetchEVMTotalSupply "Ethereum"
      (envC6.evm "Ethereum" (ethLinkC1.contractAddress.getD "")) = .num 42 := by
    norm_num [fetchEVMTotalSupply, envC6, ethLinkC1, CHAINS]
  rw [he] at h
  exact h

/-- Claim C10: for every numeric circulating supply `c ≤ 0` — including the
negative values produced when the oracle reports a total supply below the
300,000,000 locked constant — the engine takes the direct-fetch fallback for
the residual record, not the subtraction path. -/
theorem c10_nonpositive_supply_fallback (env : Env) (links : List Link) (e : Link) (c : ℚ)
    (hfind : (explorerLinksOf links).find? (fun l => l.name == "Ethereum") = some e)
    (hc : fetchCirculatingSupply env.oracle = .num c) (hnp : c ≤ 0) :
    { e with tokenBalance := some (fetchEVMTotalSupply "Ethereum"
        (env.evm "Ethereum" (e.contractAddress.getD ""))) } ∈ updateBalances env links := by
  have h := residual_record_mem env links e hfind
  have hgt : JsNum.jsGT (fetchCirculatingSupply env.oracle) (.num 0) = false := by
    rw [hc]
    simp [JsNum.jsGT]
    exact hnp
  have hval : residualValue env links e =
      fetchEVMTotalSupply "Ethereum" (env.evm "Ethereum" (e.contractAddress.getD "")) := by
    unfold residualValue
    rw [if_neg (by simp [hgt])]
  rw [hval] at h
  exact h

/-- Claim C10, witness: the oracle reports total supply 100, so the computed
circulating supply is the negative −299,999,900, and the Ethereum record gets
the directly fetched 42 rather than any subtraction. -/
theorem c10_witness :
    { ethLinkC1 with tokenBalance := some (.num 42) } ∈
      updateBalances envC10 [ethLinkC1, bscLinkC1] := by
  have h := c10_nonpositive_supply_fallback envC10 [ethLinkC1, bscLinkC1] ethLinkC1
    (-299999900) (by decide)
    (by norm_num [fetchCirculatingSupply, envC10, truthy, getField, toNumber, List.lookup,
      JsNum.sub]) (by norm_num)
  have he : fetchEVMTotalSupply "Ethereum"
      (envC10.evm "Ethereum" (ethLinkC1.contractAddress.getD "")) = .num 42 := by
    norm_num [fetchEVMTotalSupply, envC10, ethLinkC1, CHAINS]
  rw [he] at h
  exact h

/-- Claim C2, counterexample: an `Explorers` record with no contract address
does not appear in the output at all (the claim asserts it appears
unmodified): with it as the sole input record the output is empty. -/
theorem c2_counterexample : fantomNoAddr ∉ updateBalances envNull [fantomNoAddr] := by
  decide

/-- Claim C2, amended: a record in the `Explorers` category with no contract
address is never mutated, but it is omitted from the output list entirely
(it is in neither the non-`Explorers` prefix nor the eligible set). -/
theorem c2_missing_id_dropped (env : Env) (links : List Link) (r : Link)
    (hmem : r ∈ links) (hcat : r.category = "Explorers")
    (haddr : r.contractAddress = none) :
    r ∉ updateBalances env links := by
  intro hout
  rcases mem_updateBalances_cases env links hout with h1 | h2
  · have h := (List.mem_filter.mp h1).2
    simp [hcat] at h
  · simp [eligible, hcat, haddr] at h2

/-- Claim C2, witness: an address-less `Explorers` record alongside an
eligible record is dropped from the output. -/
theorem c2_witness : cronosNoAddr ∉ updateBalances envNull [cronosNoAddr, bscLinkC1] :=
  c2_missing_id_dropped envNull [cronosNoAddr, bscLinkC1] cronosNoAddr (by simp) rfl rfl

/-- Claim C7, counterexample: the non-eligible record `metisNoAddr` (category
`Explorers`, no address) does not appear ahead of the sorted eligible set —
it does not appear in the output at all. -/
theorem c7_counterexample : metisNoAddr ∉ updateBalances envC7 [metisNoAddr, arbLink] := by
  decide

/-- Claim C7, amended: the output is exactly the input's non-`Explorers`
records, in their original relative order, followed by a block of eligible
(`Explorers` with truthy address) records, one per eligible input record;
non-eligible records in the `Explorers` category are dropped entirely. -/
theorem c7_nonexplorers_first (env : Env) (links : List Link) :
    ∃ B, updateBalances env links =
      (links.filter fun l => !(l.category == "Explorers")) ++ B ∧
      (∀ r ∈ B, eligible r = true) ∧ B.length = (explorerLinksOf links).length := by
  refine ⟨sortRecords (residualPhase env (fetchCirculatingSupply env.oracle)
    (totalBridged env (explorerLinksOf links)) (fetchPhase env (explorerLinksOf links))),
    rfl, ?_, ?_⟩
  · intro r hr
    rw [mem_sortRecords] at hr
    exact eligible_of_mem_residualPhase env _ _
      (fun x hx => eligible_of_mem_fetchPhase env (fun z hz => (List.mem_filter.mp hz).2) hx) hr
  · rw [length_sortRecords]
    unfold residualPhase
    rw [length_setFirstEthereum]
    simp [fetchPhase]

end FetchBalances
